import Mathlib

/-!
Verification of the BrainByte perishable-goods logistics core
(src/Food_YOLO/shortpath.py) against its natural-language specification.

The Python module is shallowly embedded below.  Python floats are modelled
as rationals (ℚ); Python ints as ℤ; Python sets of goods ids as lists with
idempotent insertion.  `Location.distance_to` in the source is the haversine
great-circle formula over floating-point trigonometry; since that function
is transcendental it is modelled as an abstract distance oracle
`dist : Location → Location → ℚ` passed to every definition where the source
would call `distance_to`.  All universal claims are quantified over `dist`
(so they hold in particular for the haversine instance), and concrete
scenarios instantiate `dist` with the distances the scenario prescribes.
Python's stable `sorted`/`list.sort` is modelled by stable insertion sort
over the corresponding total preorder, which yields the same list.
-/

namespace BrainByte

/-- Goods category, from `class GoodsType(Enum)`. -/
inductive GoodsType where
  | food
  | medicine
deriving DecidableEq, Repr

/-- `@dataclass Location` (id, name, latitude, longitude, type). -/
structure Location where
  id : String
  name : String
  latitude : ℚ
  longitude : ℚ
  type : String
deriving DecidableEq, Repr

/-- `@dataclass PerishableGoods`. -/
structure PerishableGoods where
  id : String
  name : String
  goods_type : GoodsType
  quantity : ℚ
  pickup_location : Location
  delivery_location : Location
  time_to_expiry : ℤ
  priority : ℤ := 1
  pickup_time_window : ℤ × ℤ := (0, 1440)
deriving DecidableEq, Repr

/-- `PerishableGoods.urgency_score`:
`1000 / max(time_to_expiry, 1) + (6 - priority) * 10`. -/
def urgency_score (g : PerishableGoods) : ℚ :=
  1000 / ((max g.time_to_expiry 1 : ℤ) : ℚ) + ((6 - g.priority : ℤ) : ℚ) * 10

/-- `@dataclass Vehicle`. -/
structure Vehicle where
  id : String
  name : String
  capacity : ℚ
  current_location : Location
  speed : ℚ := 40
deriving DecidableEq, Repr

/-- `Vehicle.travel_time`: `(distance / speed) * 60` minutes. -/
def travel_time (dist : Location → Location → ℚ) (v : Vehicle)
    (from_loc to_loc : Location) : ℚ :=
  dist from_loc to_loc / v.speed * 60

/-- `@dataclass RouteStop`.  The action kind is a plain string in the
source (`'pickup'` / `'delivery'`), with a 15-minute default service
duration. -/
structure RouteStop where
  location : Location
  action : String
  goods : PerishableGoods
  arrival_time : ℚ
  estimated_duration : ℚ := 15
deriving DecidableEq, Repr

/-- `@dataclass Route`. -/
structure Route where
  vehicle : Vehicle
  stops : List RouteStop := []
  total_distance : ℚ := 0
  total_time : ℚ := 0
  goods_delivered : List PerishableGoods := []
deriving DecidableEq, Repr

/-- The replay loop inside `Route.is_feasible`: walk the stops tracking the
running load; a pickup that pushes the load above capacity or a non-pickup
stop whose arrival time exceeds the item's time-to-expiry makes the route
infeasible. -/
def feasLoop (cap : ℚ) : ℚ → List RouteStop → Bool × String
  | _, [] => (true, "Route is feasible")
  | load, stop :: rest =>
    if stop.action = "pickup" then
      if cap < load + stop.goods.quantity then
        (false, "Capacity exceeded at " ++ stop.location.name)
      else feasLoop cap (load + stop.goods.quantity) rest
    else
      if (stop.goods.time_to_expiry : ℚ) < stop.arrival_time then
        (false, stop.goods.name ++ " expired before delivery")
      else feasLoop cap (load - stop.goods.quantity) rest

/-- `Route.is_feasible`. -/
def Route.is_feasible (r : Route) : Bool × String :=
  feasLoop r.vehicle.capacity 0 r.stops

/-- `Route.total_goods_saved`: total quantity over `goods_delivered`. -/
def Route.total_goods_saved (r : Route) : ℚ :=
  (r.goods_delivered.map (fun g => g.quantity)).sum

/-- Python `set.add`: insert an id unless it is already present. -/
def insertIdem (x : String) (l : List String) : List String :=
  if x ∈ l then l else x :: l

/-- The local planning state threaded through the builders' while loops:
the route under construction (stops, cached distance, delivered list) plus
`current_location`, `current_time`, `picked_up`, `delivered`. -/
structure BuildState where
  stops : List RouteStop
  total_distance : ℚ
  goods_delivered : List PerishableGoods
  loc : Location
  time : ℚ
  picked_up : List String
  delivered : List String
deriving DecidableEq, Repr

/-- Initial planning state of every builder run. -/
def initState (v : Vehicle) : BuildState :=
  { stops := [], total_distance := 0, goods_delivered := [],
    loc := v.current_location, time := 0, picked_up := [], delivered := [] }

/-- `score > best_score` with `best_score` initialised to `-inf`:
with no current best, any finite score wins. -/
def beats (acc : Option (ℚ × String × PerishableGoods)) (score : ℚ) : Bool :=
  match acc with
  | none => true
  | some (bs, _, _) => decide (bs < score)

/-- `distance < min_distance` with `min_distance` initialised to `inf`
(pickup candidates in `_optimize_by_distance`). -/
def closerP (acc : Option (ℚ × String × PerishableGoods)) (d : ℚ) : Bool :=
  match acc with
  | none => true
  | some (m, _, _) => decide (d < m)

/-- `distance < min_distance - 1` with `min_distance` initialised to `inf`
(delivery candidates in `_optimize_by_distance`). -/
def closerD (acc : Option (ℚ × String × PerishableGoods)) (d : ℚ) : Bool :=
  match acc with
  | none => true
  | some (m, _, _) => decide (d < m - 1)

/-- One candidate-evaluation step of the greedy builder's inner `for` loop
(`optimize_route`, lines 144–176): skip delivered goods; an unpicked item
is a pickup candidate when its arrival meets the window close bound, scored
`urgency − 0.5·travel_time`; a picked item is a delivery candidate when its
arrival meets the expiry, scored `urgency + 50 − 0.3·travel_time`; a
candidate replaces the best on strictly higher score. -/
def greedyStep (dist : Location → Location → ℚ) (v : Vehicle) (loc : Location)
    (time : ℚ) (pu del : List String)
    (acc : Option (ℚ × String × PerishableGoods)) (g : PerishableGoods) :
    Option (ℚ × String × PerishableGoods) :=
  if g.id ∈ del then acc
  else if g.id ∉ pu then
    if time + travel_time dist v loc g.pickup_location ≤ (g.pickup_time_window.2 : ℚ) then
      if beats acc (urgency_score g - travel_time dist v loc g.pickup_location * 0.5) then
        some (urgency_score g - travel_time dist v loc g.pickup_location * 0.5, "pickup", g)
      else acc
    else acc
  else
    if time + travel_time dist v loc g.delivery_location ≤ (g.time_to_expiry : ℚ) then
      if beats acc (urgency_score g + 50 - travel_time dist v loc g.delivery_location * 0.3) then
        some (urgency_score g + 50 - travel_time dist v loc g.delivery_location * 0.3, "delivery", g)
      else acc
    else acc

/-- The `RouteStop` appended when a pickup of `g` is committed from state
`s`: located at the pickup location, arriving after the travel time. -/
def pickupStopOf (dist : Location → Location → ℚ) (v : Vehicle)
    (s : BuildState) (g : PerishableGoods) : RouteStop :=
  { location := g.pickup_location, action := "pickup", goods := g,
    arrival_time := s.time + travel_time dist v s.loc g.pickup_location }

/-- The `RouteStop` appended when a delivery of `g` is committed from state
`s`. -/
def deliveryStopOf (dist : Location → Location → ℚ) (v : Vehicle)
    (s : BuildState) (g : PerishableGoods) : RouteStop :=
  { location := g.delivery_location, action := "delivery", goods := g,
    arrival_time := s.time + travel_time dist v s.loc g.delivery_location }

/-- Committing a pickup in `optimize_route` (lines 183–198): advance the
clock by the travel time, append the stop, record the id, move, add the
15-minute service time, and update the cached distance — from the vehicle's
start when this is the first stop, otherwise from the stop's own location
to the (already updated) current location, i.e. the pickup location to
itself. -/
def commitPickup (dist : Location → Location → ℚ) (v : Vehicle)
    (s : BuildState) (g : PerishableGoods) : BuildState :=
  { stops := s.stops ++ [pickupStopOf dist v s g],
    total_distance := s.total_distance +
      (if (s.stops ++ [pickupStopOf dist v s g]).length = 1 then
        dist v.current_location g.pickup_location
      else dist g.pickup_location g.pickup_location),
    goods_delivered := s.goods_delivered,
    loc := g.pickup_location,
    time := s.time + travel_time dist v s.loc g.pickup_location + 15,
    picked_up := insertIdem g.id s.picked_up,
    delivered := s.delivered }

/-- Committing a delivery (`optimize_route` lines 200–215, and the
identical block of `_optimize_by_distance`): advance the clock, append the
stop, mark delivered, append to `goods_delivered`, move, add the service
time.  The cached distance is not touched. -/
def commitDelivery (dist : Location → Location → ℚ) (v : Vehicle)
    (s : BuildState) (g : PerishableGoods) : BuildState :=
  { stops := s.stops ++ [deliveryStopOf dist v s g],
    total_distance := s.total_distance,
    goods_delivered := s.goods_delivered ++ [g],
    loc := g.delivery_location,
    time := s.time + travel_time dist v s.loc g.delivery_location + 15,
    picked_up := s.picked_up,
    delivered := insertIdem g.id s.delivered }

/-- The greedy builder's `while len(delivered) < len(sorted_goods)` loop,
made total with a fuel parameter (the entry points always supply enough
fuel; see the termination theorem). -/
def greedyLoop (dist : Location → Location → ℚ) (v : Vehicle)
    (goods : List PerishableGoods) : Nat → BuildState → BuildState
  | 0, s => s
  | fuel + 1, s =>
    if s.delivered.length < goods.length then
      match goods.foldl (greedyStep dist v s.loc s.time s.picked_up s.delivered) none with
      | none => s
      | some (_, a, g) =>
        if a = "pickup" then
          greedyLoop dist v goods fuel (commitPickup dist v s g)
        else
          greedyLoop dist v goods fuel (commitDelivery dist v s g)
    else s

/-- Assembling the returned `Route` from the final loop state
(`route.total_time = current_time` just before `return route`). -/
def routeOf (v : Vehicle) (s : BuildState) : Route :=
  { vehicle := v, stops := s.stops, total_distance := s.total_distance,
    total_time := s.time, goods_delivered := s.goods_delivered }

/-- The urgency-descending stable sort opening `optimize_route`
(`sorted(goods_list, key=urgency_score, reverse=True)`). -/
def sortByUrgency (goods_list : List PerishableGoods) : List PerishableGoods :=
  goods_list.insertionSort (fun a b => urgency_score b ≤ urgency_score a)

/-- `LogisticsOptimizer.optimize_route` run with an explicit fuel bound on
its while loop. -/
def optimize_route_fuel (dist : Location → Location → ℚ) (v : Vehicle)
    (goods_list : List PerishableGoods) (fuel : Nat) : Route :=
  if goods_list.isEmpty then { vehicle := v }
  else routeOf v (greedyLoop dist v (sortByUrgency goods_list) fuel (initState v))

/-- `LogisticsOptimizer.optimize_route` (the greedy builder): sort by
urgency score descending (stably) and run the loop; `2·N + 1` fuel always
suffices, as proved in the termination theorem. -/
def optimize_route (dist : Location → Location → ℚ) (v : Vehicle)
    (goods_list : List PerishableGoods) : Route :=
  optimize_route_fuel dist v goods_list (2 * goods_list.length + 1)

/-- One candidate-evaluation step of `_optimize_by_distance`'s inner loop
(lines 276–298): scoring is pure distance; a pickup candidate replaces the
best when `distance < min_distance`, a delivery candidate only when
`distance < min_distance - 1`; eligibility checks are as in the greedy
builder. -/
def distStep (dist : Location → Location → ℚ) (v : Vehicle) (loc : Location)
    (time : ℚ) (pu del : List String)
    (acc : Option (ℚ × String × PerishableGoods)) (g : PerishableGoods) :
    Option (ℚ × String × PerishableGoods) :=
  if g.id ∈ del then acc
  else if g.id ∉ pu then
    if time + dist loc g.pickup_location / v.speed * 60 ≤ (g.pickup_time_window.2 : ℚ) then
      if closerP acc (dist loc g.pickup_location) then
        some (dist loc g.pickup_location, "pickup", g)
      else acc
    else acc
  else
    if time + dist loc g.delivery_location / v.speed * 60 ≤ (g.time_to_expiry : ℚ) then
      if closerD acc (dist loc g.delivery_location) then
        some (dist loc g.delivery_location, "delivery", g)
      else acc
    else acc

/-- Committing a pickup in `_optimize_by_distance` (lines 303–311): as in
the greedy builder but the cached `total_distance` is never updated. -/
def commitPickupD (dist : Location → Location → ℚ) (v : Vehicle)
    (s : BuildState) (g : PerishableGoods) : BuildState :=
  { stops := s.stops ++ [pickupStopOf dist v s g],
    total_distance := s.total_distance,
    goods_delivered := s.goods_delivered,
    loc := g.pickup_location,
    time := s.time + travel_time dist v s.loc g.pickup_location + 15,
    picked_up := insertIdem g.id s.picked_up,
    delivered := s.delivered }

/-- The `while` loop of `_optimize_by_distance`, with fuel. -/
def distLoop (dist : Location → Location → ℚ) (v : Vehicle)
    (goods : List PerishableGoods) : Nat → BuildState → BuildState
  | 0, s => s
  | fuel + 1, s =>
    if s.delivered.length < goods.length then
      match goods.foldl (distStep dist v s.loc s.time s.picked_up s.delivered) none with
      | none => s
      | some (_, a, g) =>
        if a = "pickup" then
          distLoop dist v goods fuel (commitPickupD dist v s g)
        else
          distLoop dist v goods fuel (commitDelivery dist v s g)
    else s

/-- `_optimize_by_distance` with an explicit fuel bound. -/
def optimize_by_distance_fuel (dist : Location → Location → ℚ) (v : Vehicle)
    (goods_list : List PerishableGoods) (fuel : Nat) : Route :=
  routeOf v (distLoop dist v goods_list fuel (initState v))

/-- `LogisticsOptimizer._optimize_by_distance` (the nearest-action
builder). -/
def optimize_by_distance (dist : Location → Location → ℚ) (v : Vehicle)
    (goods_list : List PerishableGoods) : Route :=
  optimize_by_distance_fuel dist v goods_list (2 * goods_list.length + 1)

/-- The `(time_to_expiry, pickup_time_window[1])` ascending stable sort of
`_optimize_by_time_window`. -/
def sortByDeadline (goods_list : List PerishableGoods) : List PerishableGoods :=
  goods_list.insertionSort (fun a b =>
    a.time_to_expiry < b.time_to_expiry ∨
      (a.time_to_expiry = b.time_to_expiry ∧
        a.pickup_time_window.2 ≤ b.pickup_time_window.2))

/-- `LogisticsOptimizer._optimize_by_time_window` (the deadline-ordered
builder): sort by deadline and delegate to the greedy builder. -/
def optimize_by_time_window (dist : Location → Location → ℚ) (v : Vehicle)
    (goods_list : List PerishableGoods) : Route :=
  optimize_route dist v (sortByDeadline goods_list)

/-- The comparison realising Python's
`routes.sort(key=lambda r: (r.total_goods_saved(), -r.total_time), reverse=True)`:
`a` may precede `b` iff `a`'s key is lexicographically ≥ `b`'s. -/
def route_key_le (a b : Route) : Prop :=
  b.total_goods_saved < a.total_goods_saved ∨
    (b.total_goods_saved = a.total_goods_saved ∧ a.total_time ≤ b.total_time)

instance : DecidableRel route_key_le := by
  intro a b
  unfold route_key_le
  infer_instance

/-- `LogisticsOptimizer.find_k_shortest_routes`: run the three builders,
keep non-empty routes, skipping a route equal (as a whole Python dataclass
value) to an earlier one, sort by goods saved descending with total time
ascending as tiebreak, return the first `k`. -/
def find_k_shortest_routes (dist : Location → Location → ℚ) (v : Vehicle)
    (goods_list : List PerishableGoods) (k : Nat) : List Route :=
  let route1 := optimize_route dist v goods_list
  let routes : List Route := if route1.stops ≠ [] then [route1] else []
  let routes := if (optimize_by_distance dist v goods_list).stops ≠ [] ∧
      optimize_by_distance dist v goods_list ≠ route1 then
    routes ++ [optimize_by_distance dist v goods_list] else routes
  let routes := if (optimize_by_time_window dist v goods_list).stops ≠ [] ∧
      optimize_by_time_window dist v goods_list ∉ routes then
    routes ++ [optimize_by_time_window dist v goods_list] else routes
  (routes.insertionSort route_key_le).take k

/-! ## Properties recomputable from a stop sequence

These definitions state, in the claims' own terms, what the cached route
fields and the structural invariants of a stop sequence should be. -/

/-- The goods ids of the pickup stops, in stop order. -/
def pickupIds (stops : List RouteStop) : List String :=
  (stops.filter (fun st => decide (st.action = "pickup"))).map (fun st => st.goods.id)

/-- The goods ids of the delivery stops, in stop order. -/
def deliveryIds (stops : List RouteStop) : List String :=
  (stops.filter (fun st => decide (st.action = "delivery"))).map (fun st => st.goods.id)

/-- The delivered items recomputed from the stop sequence alone: the goods
of the delivery stops, in order. -/
def recomputed_delivered (stops : List RouteStop) : List PerishableGoods :=
  (stops.filter (fun st => decide (st.action = "delivery"))).map (fun st => st.goods)

/-- The elapsed time recomputed from the stop sequence alone: the last
stop's arrival time plus its service duration (0 for an empty route). -/
def end_time (stops : List RouteStop) : ℚ :=
  match stops.getLast? with
  | none => 0
  | some st => st.arrival_time + st.estimated_duration

/-- The distance from the given start location to the first stop (0 for an
empty route) — what the greedy builder's cached `total_distance` actually
equals. -/
def head_leg (dist : Location → Location → ℚ) (start : Location)
    (stops : List RouteStop) : ℚ :=
  match stops.head? with
  | none => 0
  | some st => dist start st.location

/-- Modelled from the spec: the total route distance recomputed from the
stop sequence alone, as the claim words it — the sum of leg distances from
the vehicle's start location through every stop in order. -/
def spec_route_distance (dist : Location → Location → ℚ) :
    Location → List RouteStop → ℚ
  | _, [] => 0
  | cur, st :: rest => dist cur st.location + spec_route_distance dist st.location rest

/-- Every delivery stop of the route arrives no later than its item's
time-to-expiry. -/
def DeliveriesMeetDeadline (r : Route) : Prop :=
  ∀ st ∈ r.stops, st.action = "delivery" →
    st.arrival_time ≤ (st.goods.time_to_expiry : ℚ)

/-- The feasibility checker accepts the route, or rejects it only for a
capacity violation at one of its stops — never for a missed expiry. -/
def FeasibleOrCapacityOnly (r : Route) : Prop :=
  Route.is_feasible r = (true, "Route is feasible") ∨
    ∃ st ∈ r.stops,
      Route.is_feasible r = (false, "Capacity exceeded at " ++ st.location.name)

/-- The structural invariant claimed for built routes: no item is picked
up twice, none is delivered twice, and every delivery stop is preceded by
a pickup stop of the same item. -/
def SafeStopSequence (r : Route) : Prop :=
  (pickupIds r.stops).Nodup ∧ (deliveryIds r.stops).Nodup ∧
    ∀ pre d suf, r.stops = pre ++ d :: suf → d.action = "delivery" →
      ∃ p, p ∈ pre ∧ p.action = "pickup" ∧ p.goods = d.goods

/-! ## Soundness of candidate selection

Whatever candidate either inner loop returns was eligible at selection
time: an unpicked, undelivered item whose pickup arrival meets the window
close bound, or a picked, undelivered item whose delivery arrival meets
the expiry. -/

/-- The selected candidate's eligibility certificate. -/
def GoodCand (dist : Location → Location → ℚ) (v : Vehicle) (loc : Location)
    (time : ℚ) (pu del : List String) (goods : List PerishableGoods)
    (c : ℚ × String × PerishableGoods) : Prop :=
  c.2.2 ∈ goods ∧ c.2.2.id ∉ del ∧
    ((c.2.1 = "pickup" ∧ c.2.2.id ∉ pu ∧
        time + travel_time dist v loc c.2.2.pickup_location ≤
          (c.2.2.pickup_time_window.2 : ℚ)) ∨
      (c.2.1 = "delivery" ∧ c.2.2.id ∈ pu ∧
        time + travel_time dist v loc c.2.2.delivery_location ≤
          (c.2.2.time_to_expiry : ℚ)))

lemma greedyStep_sound {dist : Location → Location → ℚ} {v : Vehicle}
    {loc : Location} {time : ℚ} {pu del : List String}
    {goods : List PerishableGoods}
    {acc : Option (ℚ × String × PerishableGoods)} {g : PerishableGoods}
    (hacc : ∀ c, acc = some c → GoodCand dist v loc time pu del goods c)
    (hg : g ∈ goods) :
    ∀ c, greedyStep dist v loc time pu del acc g = some c →
      GoodCand dist v loc time pu del goods c := by
  intro c hc
  unfold greedyStep at hc
  split at hc
  · exact hacc c hc
  · rename_i hdel
    split at hc
    · rename_i hpu
      split at hc
      · rename_i helig
        split at hc
        · cases hc
          exact ⟨hg, hdel, Or.inl ⟨rfl, hpu, helig⟩⟩
        · exact hacc c hc
      · exact hacc c hc
    · rename_i hpu
      split at hc
      · rename_i helig
        split at hc
        · cases hc
          exact ⟨hg, hdel, Or.inr ⟨rfl, not_not.mp hpu, helig⟩⟩
        · exact hacc c hc
      · exact hacc c hc

lemma distStep_sound {dist : Location → Location → ℚ} {v : Vehicle}
    {loc : Location} {time : ℚ} {pu del : List String}
    {goods : List PerishableGoods}
    {acc : Option (ℚ × String × PerishableGoods)} {g : PerishableGoods}
    (hacc : ∀ c, acc = some c → GoodCand dist v loc time pu del goods c)
    (hg : g ∈ goods) :
    ∀ c, distStep dist v loc time pu del acc g = some c →
      GoodCand dist v loc time pu del goods c := by
  intro c hc
  unfold distStep at hc
  split at hc
  · exact hacc c hc
  · rename_i hdel
    split at hc
    · rename_i hpu
      split at hc
      · rename_i helig
        split at hc
        · cases hc
          exact ⟨hg, hdel, Or.inl ⟨rfl, hpu, helig⟩⟩
        · exact hacc c hc
      · exact hacc c hc
    · rename_i hpu
      split at hc
      · rename_i helig
        split at hc
        · cases hc
          exact ⟨hg, hdel, Or.inr ⟨rfl, not_not.mp hpu, helig⟩⟩
        · exact hacc c hc
      · exact hacc c hc

lemma foldl_sound {dist : Location → Location → ℚ} {v : Vehicle}
    {loc : Location} {time : ℚ} {pu del : List String}
    {goods : List PerishableGoods}
    {step : Option (ℚ × String × PerishableGoods) → PerishableGoods →
      Option (ℚ × String × PerishableGoods)}
    (hstep : ∀ acc g, (∀ c, acc = some c → GoodCand dist v loc time pu del goods c) →
      g ∈ goods → ∀ c, step acc g = some c → GoodCand dist v loc time pu del goods c) :
    ∀ (l : List PerishableGoods), (∀ g ∈ l, g ∈ goods) →
      ∀ acc, (∀ c, acc = some c → GoodCand dist v loc time pu del goods c) →
      ∀ c, l.foldl step acc = some c → GoodCand dist v loc time pu del goods c := by
  intro l
  induction l with
  | nil =>
    intro _ acc hacc c hc
    simp only [List.foldl_nil] at hc
    exact hacc c hc
  | cons g l ih =>
    intro hsub acc hacc c hc
    simp only [List.foldl_cons] at hc
    exact ih (fun x hx => hsub x (List.mem_cons_of_mem _ hx)) _
      (fun c' hc' => hstep acc g hacc (hsub g (List.mem_cons_self g l)) c' hc') c hc

/-! ## List bookkeeping lemmas -/

lemma pickupIds_append (l₁ l₂ : List RouteStop) :
    pickupIds (l₁ ++ l₂) = pickupIds l₁ ++ pickupIds l₂ := by
  simp [pickupIds, List.filter_append]

lemma deliveryIds_append (l₁ l₂ : List RouteStop) :
    deliveryIds (l₁ ++ l₂) = deliveryIds l₁ ++ deliveryIds l₂ := by
  simp [deliveryIds, List.filter_append]

lemma recomputed_delivered_append (l₁ l₂ : List RouteStop) :
    recomputed_delivered (l₁ ++ l₂) =
      recomputed_delivered l₁ ++ recomputed_delivered l₂ := by
  simp [recomputed_delivered, List.filter_append]

lemma pickupIds_single_pickup {st : RouteStop} (h : st.action = "pickup") :
    pickupIds [st] = [st.goods.id] := by
  simp [pickupIds, List.filter, h]

lemma pickupIds_single_other {st : RouteStop} (h : st.action ≠ "pickup") :
    pickupIds [st] = [] := by
  simp [pickupIds, List.filter, h]

lemma deliveryIds_single_delivery {st : RouteStop} (h : st.action = "delivery") :
    deliveryIds [st] = [st.goods.id] := by
  simp [deliveryIds, List.filter, h]

lemma deliveryIds_single_other {st : RouteStop} (h : st.action ≠ "delivery") :
    deliveryIds [st] = [] := by
  simp [deliveryIds, List.filter, h]

lemma recomputed_delivered_single_delivery {st : RouteStop}
    (h : st.action = "delivery") : recomputed_delivered [st] = [st.goods] := by
  simp [recomputed_delivered, List.filter, h]

lemma recomputed_delivered_single_other {st : RouteStop}
    (h : st.action ≠ "delivery") : recomputed_delivered [st] = [] := by
  simp [recomputed_delivered, List.filter, h]

lemma mem_pickupIds {stops : List RouteStop} {i : String} :
    i ∈ pickupIds stops ↔ ∃ st ∈ stops, st.action = "pickup" ∧ st.goods.id = i := by
  simp [pickupIds, List.mem_map, List.mem_filter, and_assoc]

lemma mem_deliveryIds {stops : List RouteStop} {i : String} :
    i ∈ deliveryIds stops ↔ ∃ st ∈ stops, st.action = "delivery" ∧ st.goods.id = i := by
  simp [deliveryIds, List.mem_map, List.mem_filter, and_assoc]

lemma end_time_append (l : List RouteStop) (st : RouteStop) :
    end_time (l ++ [st]) = st.arrival_time + st.estimated_duration := by
  simp [end_time, List.getLast?_concat]

lemma insertIdem_of_not_mem {x : String} {l : List String} (h : x ∉ l) :
    insertIdem x l = x :: l := by
  simp [insertIdem, h]

lemma append_singleton_decomp {α : Type _} {l pre suf : List α} {d x : α}
    (h : l ++ [x] = pre ++ d :: suf) :
    (∃ suf₀, suf = suf₀ ++ [x] ∧ l = pre ++ d :: suf₀) ∨
      (d = x ∧ pre = l ∧ suf = []) := by
  rcases List.eq_nil_or_concat suf with rfl | ⟨suf₀, y, rfl⟩
  · have h2 : l ++ [x] = pre ++ [d] := h
    have hl : l = pre ∧ [x] = [d] := List.append_inj' h2 rfl
    exact Or.inr ⟨(List.cons.injEq _ _ _ _ ▸ hl.2).1.symm, hl.1.symm, rfl⟩
  · have h2 : l ++ [x] = (pre ++ d :: suf₀) ++ [y] := by
      simpa [List.append_assoc] using h
    have hl : l = pre ++ d :: suf₀ ∧ [x] = [y] := List.append_inj' h2 rfl
    exact Or.inl ⟨suf₀, by simp [← (List.cons.injEq _ _ _ _ ▸ hl.2).1], hl.1⟩

/-! ## The loop invariant

All structural facts maintained by both builders' while loops. -/

structure Inv (goods : List PerishableGoods) (s : BuildState) : Prop where
  hpu : s.picked_up = (pickupIds s.stops).reverse
  hdel : s.delivered = (deliveryIds s.stops).reverse
  hpuN : s.picked_up.Nodup
  hdelN : s.delivered.Nodup
  hmem : ∀ st ∈ s.stops, st.goods ∈ goods
  hact : ∀ st ∈ s.stops, st.action = "pickup" ∨ st.action = "delivery"
  hdead : ∀ st ∈ s.stops, st.action = "delivery" →
    st.arrival_time ≤ (st.goods.time_to_expiry : ℚ)
  hprec : ∀ pre d suf, s.stops = pre ++ d :: suf → d.action = "delivery" →
    ∃ p, p ∈ pre ∧ p.action = "pickup" ∧ p.goods.id = d.goods.id
  hlen : s.stops.length = s.picked_up.length + s.delivered.length
  htime : s.time = end_time s.stops
  hgd : s.goods_delivered = recomputed_delivered s.stops

lemma inv_initState (goods : List PerishableGoods) (v : Vehicle) :
    Inv goods (initState v) := by
  refine ⟨rfl, rfl, List.nodup_nil, List.nodup_nil, ?_, ?_, ?_, ?_, rfl, rfl, rfl⟩
  · intro st hst; cases hst
  · intro st hst; cases hst
  · intro st hst; cases hst
  · intro pre d suf h _
    exact absurd h (by simp [initState])

lemma inv_commitPickup {dist : Location → Location → ℚ} {v : Vehicle}
    {goods : List PerishableGoods} {s : BuildState} {g : PerishableGoods}
    (hs : Inv goods s) (hg : g ∈ goods) (hfresh : g.id ∉ s.picked_up) :
    Inv goods (commitPickup dist v s g) := by
  have hstact : (pickupStopOf dist v s g).action = "pickup" := rfl
  have hpids : pickupIds (s.stops ++ [pickupStopOf dist v s g]) =
      pickupIds s.stops ++ [g.id] := by
    rw [pickupIds_append, pickupIds_single_pickup hstact]
    rfl
  have hdids : deliveryIds (s.stops ++ [pickupStopOf dist v s g]) =
      deliveryIds s.stops := by
    rw [deliveryIds_append, deliveryIds_single_other (by rw [hstact]; decide)]
    simp
  have hins : insertIdem g.id s.picked_up = g.id :: s.picked_up :=
    insertIdem_of_not_mem hfresh
  refine ⟨?_, ?_, ?_, ?_, ?_, ?_, ?_, ?_, ?_, ?_, ?_⟩
  · show insertIdem g.id s.picked_up =
      (pickupIds (s.stops ++ [pickupStopOf dist v s g])).reverse
    rw [hins, hpids, List.reverse_append, hs.hpu]
    simp
  · show s.delivered =
      (deliveryIds (s.stops ++ [pickupStopOf dist v s g])).reverse
    rw [hdids, hs.hdel]
  · show (insertIdem g.id s.picked_up).Nodup
    rw [hins]
    exact List.nodup_cons.mpr ⟨hfresh, hs.hpuN⟩
  · exact hs.hdelN
  · intro st hst
    rcases List.mem_append.mp hst with h | h
    · exact hs.hmem st h
    · rcases List.mem_singleton.mp h with rfl
      exact hg
  · intro st hst
    rcases List.mem_append.mp hst with h | h
    · exact hs.hact st h
    · rcases List.mem_singleton.mp h with rfl
      exact Or.inl hstact
  · intro st hst hd
    rcases List.mem_append.mp hst with h | h
    · exact hs.hdead st h hd
    · rcases List.mem_singleton.mp h with rfl
      exact absurd (hstact ▸ hd) (by decide)
  · show ∀ pre d suf, s.stops ++ [pickupStopOf dist v s g] = pre ++ d :: suf → _
    intro pre d suf hdecomp hd
    rcases append_singleton_decomp hdecomp with ⟨suf₀, _, hold⟩ | ⟨rfl, _, _⟩
    · exact hs.hprec pre d suf₀ hold hd
    · exact absurd (hstact ▸ hd) (by decide)
  · show (s.stops ++ [pickupStopOf dist v s g]).length =
      (insertIdem g.id s.picked_up).length + s.delivered.length
    rw [hins]
    simp only [List.length_append, List.length_cons, List.length_nil, hs.hlen]
    omega
  · show s.time + travel_time dist v s.loc g.pickup_location + 15 =
      end_time (s.stops ++ [pickupStopOf dist v s g])
    rw [end_time_append]
    simp [pickupStopOf]
  · show s.goods_delivered =
      recomputed_delivered (s.stops ++ [pickupStopOf dist v s g])
    rw [recomputed_delivered_append,
      recomputed_delivered_single_other (by rw [hstact]; decide), hs.hgd]
    simp

lemma inv_commitDelivery {dist : Location → Location → ℚ} {v : Vehicle}
    {goods : List PerishableGoods} {s : BuildState} {g : PerishableGoods}
    (hs : Inv goods s) (hg : g ∈ goods) (hpu : g.id ∈ s.picked_up)
    (hfresh : g.id ∉ s.delivered)
    (helig : s.time + travel_time dist v s.loc g.delivery_location ≤
      (g.time_to_expiry : ℚ)) :
    Inv goods (commitDelivery dist v s g) := by
  have hstact : (deliveryStopOf dist v s g).action = "delivery" := rfl
  have hpids : pickupIds (s.stops ++ [deliveryStopOf dist v s g]) =
      pickupIds s.stops := by
    rw [pickupIds_append, pickupIds_single_other (by rw [hstact]; decide)]
    simp
  have hdids : deliveryIds (s.stops ++ [deliveryStopOf dist v s g]) =
      deliveryIds s.stops ++ [g.id] := by
    rw [deliveryIds_append, deliveryIds_single_delivery hstact]
    rfl
  have hins : insertIdem g.id s.delivered = g.id :: s.delivered :=
    insertIdem_of_not_mem hfresh
  refine ⟨?_, ?_, ?_, ?_, ?_, ?_, ?_, ?_, ?_, ?_, ?_⟩
  · show s.picked_up =
      (pickupIds (s.stops ++ [deliveryStopOf dist v s g])).reverse
    rw [hpids, hs.hpu]
  · show insertIdem g.id s.delivered =
      (deliveryIds (s.stops ++ [deliveryStopOf dist v s g])).reverse
    rw [hins, hdids, List.reverse_append, hs.hdel]
    simp
  · exact hs.hpuN
  · show (insertIdem g.id s.delivered).Nodup
    rw [hins]
    exact List.nodup_cons.mpr ⟨hfresh, hs.hdelN⟩
  · intro st hst
    rcases List.mem_append.mp hst with h | h
    · exact hs.hmem st h
    · rcases List.mem_singleton.mp h with rfl
      exact hg
  · intro st hst
    rcases List.mem_append.mp hst with h | h
    · exact hs.hact st h
    · rcases List.mem_singleton.mp h with rfl
      exact Or.inr hstact
  · intro st hst hd
    rcases List.mem_append.mp hst with h | h
    · exact hs.hdead st h hd
    · rcases List.mem_singleton.mp h with rfl
      exact helig
  · show ∀ pre d suf, s.stops ++ [deliveryStopOf dist v s g] = pre ++ d :: suf → _
    intro pre d suf hdecomp hd
    rcases append_singleton_decomp hdecomp with ⟨suf₀, _, hold⟩ | ⟨rfl, hpre, _⟩
    · exact hs.hprec pre d suf₀ hold hd
    · have : g.id ∈ pickupIds s.stops := by
        have := hs.hpu ▸ hpu
        simpa using this
      rcases mem_pickupIds.mp this with ⟨p, hp, hpa, hpid⟩
      exact ⟨p, hpre ▸ hp, hpa, by simp [deliveryStopOf, hpid]⟩
  · show (s.stops ++ [deliveryStopOf dist v s g]).length =
      s.picked_up.length + (insertIdem g.id s.delivered).length
    rw [hins]
    simp only [List.length_append, List.length_cons, List.length_nil, hs.hlen]
    omega
  · show s.time + travel_time dist v s.loc g.delivery_location + 15 =
      end_time (s.stops ++ [deliveryStopOf dist v s g])
    rw [end_time_append]
    simp [deliveryStopOf]
  · show s.goods_delivered ++ [g] =
      recomputed_delivered (s.stops ++ [deliveryStopOf dist v s g])
    rw [recomputed_delivered_append,
      recomputed_delivered_single_delivery hstact, hs.hgd]
    simp [deliveryStopOf]

lemma commitPickupD_eq {dist : Location → Location → ℚ} {v : Vehicle}
    {s : BuildState} {g : PerishableGoods} :
    commitPickupD dist v s g =
      { commitPickup dist v s g with total_distance := s.total_distance } := rfl

lemma inv_total_distance_irrel {goods : List PerishableGoods} {s : BuildState}
    (hs : Inv goods s) (q : ℚ) : Inv goods { s with total_distance := q } :=
  ⟨hs.hpu, hs.hdel, hs.hpuN, hs.hdelN, hs.hmem, hs.hact, hs.hdead, hs.hprec,
    hs.hlen, hs.htime, hs.hgd⟩

lemma inv_commitPickupD {dist : Location → Location → ℚ} {v : Vehicle}
    {goods : List PerishableGoods} {s : BuildState} {g : PerishableGoods}
    (hs : Inv goods s) (hg : g ∈ goods) (hfresh : g.id ∉ s.picked_up) :
    Inv goods (commitPickupD dist v s g) := by
  rw [commitPickupD_eq]
  exact inv_total_distance_irrel (inv_commitPickup hs hg hfresh) _

/-- The eligibility certificate of the greedy builder's selected winner. -/
lemma greedy_selection_sound {dist : Location → Location → ℚ} {v : Vehicle}
    {goods : List PerishableGoods} {s : BuildState} {c : ℚ × String × PerishableGoods}
    (heq : goods.foldl
      (greedyStep dist v s.loc s.time s.picked_up s.delivered) none = some c) :
    GoodCand dist v s.loc s.time s.picked_up s.delivered goods c :=
  foldl_sound (fun acc g hacc hg c' hc' => greedyStep_sound hacc hg c' hc')
    goods (fun _ hx => hx) none (fun _ hc => by cases hc) c heq

/-- The eligibility certificate of the nearest-action builder's winner. -/
lemma dist_selection_sound {dist : Location → Location → ℚ} {v : Vehicle}
    {goods : List PerishableGoods} {s : BuildState} {c : ℚ × String × PerishableGoods}
    (heq : goods.foldl
      (distStep dist v s.loc s.time s.picked_up s.delivered) none = some c) :
    GoodCand dist v s.loc s.time s.picked_up s.delivered goods c :=
  foldl_sound (fun acc g hacc hg c' hc' => distStep_sound hacc hg c' hc')
    goods (fun _ hx => hx) none (fun _ hc => by cases hc) c heq

lemma greedyLoop_inv {dist : Location → Location → ℚ} {v : Vehicle}
    {goods : List PerishableGoods} :
    ∀ (n : Nat) (s : BuildState), Inv goods s →
      Inv goods (greedyLoop dist v goods n s) := by
  intro n
  induction n with
  | zero => intro s hs; exact hs
  | succ n ih =>
    intro s hs
    rw [greedyLoop]
    split
    · split
      · exact hs
      · rename_i c a g heq
        have hcand := greedy_selection_sound heq
        split
        · rename_i hact
          rcases hcand.2.2 with ⟨_, hnp, _⟩ | ⟨hd, _, _⟩
          · exact ih _ (inv_commitPickup hs hcand.1 hnp)
          · have hd2 : a = "delivery" := hd
            rw [hact] at hd2
            exact absurd hd2 (by decide)
        · rename_i hact
          rcases hcand.2.2 with ⟨hp, _, _⟩ | ⟨_, hmempu, helig⟩
          · exact absurd hp hact
          · exact ih _ (inv_commitDelivery hs hcand.1 hmempu hcand.2.1 helig)
    · exact hs

lemma distLoop_inv {dist : Location → Location → ℚ} {v : Vehicle}
    {goods : List PerishableGoods} :
    ∀ (n : Nat) (s : BuildState), Inv goods s →
      Inv goods (distLoop dist v goods n s) := by
  intro n
  induction n with
  | zero => intro s hs; exact hs
  | succ n ih =>
    intro s hs
    rw [distLoop]
    split
    · split
      · exact hs
      · rename_i c a g heq
        have hcand := dist_selection_sound heq
        split
        · rename_i hact
          rcases hcand.2.2 with ⟨_, hnp, _⟩ | ⟨hd, _, _⟩
          · exact ih _ (inv_commitPickupD hs hcand.1 hnp)
          · have hd2 : a = "delivery" := hd
            rw [hact] at hd2
            exact absurd hd2 (by decide)
        · rename_i hact
          rcases hcand.2.2 with ⟨hp, _, _⟩ | ⟨_, hmempu, helig⟩
          · exact absurd hp hact
          · exact ih _ (inv_commitDelivery hs hcand.1 hmempu hcand.2.1 helig)
    · exact hs

/-! ## From loop states to returned routes -/

lemma optimize_route_cases (dist : Location → Location → ℚ) (v : Vehicle)
    (gl : List PerishableGoods) :
    optimize_route dist v gl = { vehicle := v } ∨
      ∃ s : BuildState, Inv (sortByUrgency gl) s ∧
        optimize_route dist v gl = routeOf v s := by
  by_cases h : gl.isEmpty
  · left
    simp [optimize_route, optimize_route_fuel, h]
  · right
    refine ⟨greedyLoop dist v (sortByUrgency gl) (2 * gl.length + 1) (initState v),
      greedyLoop_inv _ _ (inv_initState _ v), ?_⟩
    simp [optimize_route, optimize_route_fuel, h]

lemma optimize_by_distance_state (dist : Location → Location → ℚ) (v : Vehicle)
    (gl : List PerishableGoods) :
    ∃ s : BuildState, Inv gl s ∧ optimize_by_distance dist v gl = routeOf v s :=
  ⟨_, distLoop_inv _ _ (inv_initState _ v), rfl⟩

lemma ids_nodup_sorted_urgency {gl : List PerishableGoods}
    (h : (gl.map (fun g => g.id)).Nodup) :
    ((sortByUrgency gl).map (fun g => g.id)).Nodup :=
  (((List.perm_insertionSort _ gl).map (fun g => g.id)).nodup_iff).mpr h

lemma ids_nodup_sorted_deadline {gl : List PerishableGoods}
    (h : (gl.map (fun g => g.id)).Nodup) :
    ((sortByDeadline gl).map (fun g => g.id)).Nodup :=
  (((List.perm_insertionSort _ gl).map (fun g => g.id)).nodup_iff).mpr h

lemma safe_of_inv {goods : List PerishableGoods} {s : BuildState}
    (hs : Inv goods s) (hids : (goods.map (fun g => g.id)).Nodup)
    (v : Vehicle) : SafeStopSequence (routeOf v s) := by
  refine ⟨?_, ?_, ?_⟩
  · have h := hs.hpuN
    rw [hs.hpu] at h
    exact List.nodup_reverse.mp h
  · have h := hs.hdelN
    rw [hs.hdel] at h
    exact List.nodup_reverse.mp h
  · show ∀ pre d suf, s.stops = pre ++ d :: suf → _
    intro pre d suf hdec hd
    rcases hs.hprec pre d suf hdec hd with ⟨p, hp, hpa, hpid⟩
    have hpmem : p ∈ s.stops := by
      rw [hdec]; exact List.mem_append_left _ hp
    have hdmem : d ∈ s.stops := by
      rw [hdec]; exact List.mem_append_right _ (List.mem_cons_self _ _)
    exact ⟨p, hp, hpa,
      List.inj_on_of_nodup_map hids (hs.hmem p hpmem) (hs.hmem d hdmem) hpid⟩

lemma safe_empty (v : Vehicle) : SafeStopSequence { vehicle := v } := by
  refine ⟨?_, ?_, ?_⟩
  · show (pickupIds []).Nodup
    simp [pickupIds]
  · show (deliveryIds []).Nodup
    simp [deliveryIds]
  · show ∀ pre d suf, ([] : List RouteStop) = pre ++ d :: suf → _
    intro pre d suf h _
    exact absurd h.symm (by simp)

/-! ## The feasibility checker on built routes -/

lemma feasLoop_cap_only {cap : ℚ} :
    ∀ (stops : List RouteStop) (load : ℚ),
      (∀ st ∈ stops, st.action = "pickup" ∨ st.action = "delivery") →
      (∀ st ∈ stops, st.action = "delivery" →
        st.arrival_time ≤ (st.goods.time_to_expiry : ℚ)) →
      feasLoop cap load stops = (true, "Route is feasible") ∨
        ∃ st ∈ stops,
          feasLoop cap load stops =
            (false, "Capacity exceeded at " ++ st.location.name) := by
  intro stops
  induction stops with
  | nil => intro load _ _; left; rfl
  | cons stop rest ih =>
    intro load hact hdead
    by_cases hp : stop.action = "pickup"
    · rw [feasLoop, if_pos hp]
      by_cases hcap : cap < load + stop.goods.quantity
      · rw [if_pos hcap]
        exact Or.inr ⟨stop, List.mem_cons_self _ _, rfl⟩
      · rw [if_neg hcap]
        rcases ih (load + stop.goods.quantity)
            (fun st h => hact st (List.mem_cons_of_mem _ h))
            (fun st h hd => hdead st (List.mem_cons_of_mem _ h) hd) with
          h | ⟨st, hst, heq⟩
        · exact Or.inl h
        · exact Or.inr ⟨st, List.mem_cons_of_mem _ hst, heq⟩
    · have hd : stop.action = "delivery" :=
        (hact stop (List.mem_cons_self _ _)).resolve_left hp
      have harr := hdead stop (List.mem_cons_self _ _) hd
      rw [feasLoop, if_neg hp, if_neg (not_lt.mpr harr)]
      rcases ih (load - stop.goods.quantity)
          (fun st h => hact st (List.mem_cons_of_mem _ h))
          (fun st h hd' => hdead st (List.mem_cons_of_mem _ h) hd') with
        h | ⟨st, hst, heq⟩
      · exact Or.inl h
      · exact Or.inr ⟨st, List.mem_cons_of_mem _ hst, heq⟩

lemma feas_cap_only_of_inv {goods : List PerishableGoods} {s : BuildState}
    (hs : Inv goods s) (v : Vehicle) :
    FeasibleOrCapacityOnly (routeOf v s) := by
  unfold FeasibleOrCapacityOnly Route.is_feasible
  exact feasLoop_cap_only s.stops 0 hs.hact hs.hdead

lemma deadline_of_inv {goods : List PerishableGoods} {s : BuildState}
    (hs : Inv goods s) (v : Vehicle) :
    DeliveriesMeetDeadline (routeOf v s) :=
  fun st hst hd => hs.hdead st hst hd

lemma deadline_empty (v : Vehicle) :
    DeliveriesMeetDeadline { vehicle := v } := by
  intro st hst
  cases hst

lemma feas_empty (v : Vehicle) : FeasibleOrCapacityOnly { vehicle := v } :=
  Or.inl rfl

/-! ## Bounding the loops: ids stay inside the goods list -/

lemma pu_subset_ids {goods : List PerishableGoods} {s : BuildState}
    (hs : Inv goods s) :
    ∀ i ∈ s.picked_up, i ∈ goods.map (fun g => g.id) := by
  intro i hi
  rw [hs.hpu, List.mem_reverse] at hi
  rcases mem_pickupIds.mp hi with ⟨st, hst, _, hid⟩
  exact hid ▸ List.mem_map_of_mem _ (hs.hmem st hst)

lemma del_subset_ids {goods : List PerishableGoods} {s : BuildState}
    (hs : Inv goods s) :
    ∀ i ∈ s.delivered, i ∈ goods.map (fun g => g.id) := by
  intro i hi
  rw [hs.hdel, List.mem_reverse] at hi
  rcases mem_deliveryIds.mp hi with ⟨st, hst, _, hid⟩
  exact hid ▸ List.mem_map_of_mem _ (hs.hmem st hst)

lemma nodup_subset_length {l ids : List String} (hn : l.Nodup)
    (hsub : ∀ i ∈ l, i ∈ ids) : l.length ≤ ids.dedup.length := by
  classical
  calc l.length = l.toFinset.card := (List.toFinset_card_of_nodup hn).symm
    _ ≤ ids.toFinset.card := by
        apply Finset.card_le_card
        intro x hx
        exact List.mem_toFinset.mpr (hsub x (List.mem_toFinset.mp hx))
    _ = ids.dedup.length := by rw [List.card_toFinset]

lemma dedup_ids_le_length (goods : List PerishableGoods) :
    (goods.map (fun g => g.id)).dedup.length ≤ goods.length := by
  calc (goods.map (fun g => g.id)).dedup.length
      ≤ (goods.map (fun g => g.id)).length := (List.dedup_sublist _).length_le
    _ = goods.length := List.length_map _ _

lemma stops_le_of_inv {goods : List PerishableGoods} {s : BuildState}
    (hs : Inv goods s) : s.stops.length ≤ 2 * goods.length := by
  have h1 := nodup_subset_length hs.hpuN (pu_subset_ids hs)
  have h2 := nodup_subset_length hs.hdelN (del_subset_ids hs)
  have h3 := dedup_ids_le_length goods
  have h4 := hs.hlen
  omega

lemma commitPickup_pu_length {dist : Location → Location → ℚ} {v : Vehicle}
    {s : BuildState} {g : PerishableGoods} (hfresh : g.id ∉ s.picked_up) :
    (commitPickup dist v s g).picked_up.length = s.picked_up.length + 1 := by
  show (insertIdem g.id s.picked_up).length = _
  rw [insertIdem_of_not_mem hfresh]
  rfl

lemma commitDelivery_del_length {dist : Location → Location → ℚ} {v : Vehicle}
    {s : BuildState} {g : PerishableGoods} (hfresh : g.id ∉ s.delivered) :
    (commitDelivery dist v s g).delivered.length = s.delivered.length + 1 := by
  show (insertIdem g.id s.delivered).length = _
  rw [insertIdem_of_not_mem hfresh]
  rfl

/-! ## Termination: enough fuel reaches the loop's fixpoint -/

lemma greedyLoop_stable {dist : Location → Location → ℚ} {v : Vehicle}
    {goods : List PerishableGoods} :
    ∀ (n : Nat) (s : BuildState), Inv goods s →
      2 * (goods.map (fun g => g.id)).dedup.length + 1 ≤
        n + s.picked_up.length + s.delivered.length →
      greedyLoop dist v goods (n + 1) s = greedyLoop dist v goods n s := by
  intro n
  induction n with
  | zero =>
    intro s hs hbound
    exfalso
    have h1 := nodup_subset_length hs.hpuN (pu_subset_ids hs)
    have h2 := nodup_subset_length hs.hdelN (del_subset_ids hs)
    omega
  | succ n ih =>
    intro s hs hbound
    rw [greedyLoop]
    conv_rhs => rw [greedyLoop]
    by_cases hcond : s.delivered.length < goods.length
    · rw [if_pos hcond, if_pos hcond]
      cases hsel : goods.foldl
          (greedyStep dist v s.loc s.time s.picked_up s.delivered) none with
      | none => rfl
      | some c =>
        obtain ⟨sc, a, g⟩ := c
        have hcand := greedy_selection_sound hsel
        show (if a = "pickup" then
            greedyLoop dist v goods (n + 1) (commitPickup dist v s g)
          else greedyLoop dist v goods (n + 1) (commitDelivery dist v s g)) =
          if a = "pickup" then greedyLoop dist v goods n (commitPickup dist v s g)
          else greedyLoop dist v goods n (commitDelivery dist v s g)
        by_cases ha : a = "pickup"
        · rw [if_pos ha, if_pos ha]
          rcases hcand.2.2 with ⟨_, hnp, _⟩ | ⟨hdl, _, _⟩
          · apply ih _ (inv_commitPickup hs hcand.1 hnp)
            have hl := @commitPickup_pu_length dist v s g hnp
            have hl2 : (commitPickup dist v s g).delivered = s.delivered := rfl
            rw [hl, hl2]
            omega
          · have hd2 : a = "delivery" := hdl
            rw [ha] at hd2
            exact absurd hd2 (by decide)
        · rw [if_neg ha, if_neg ha]
          rcases hcand.2.2 with ⟨hp, _, _⟩ | ⟨_, hm, he⟩
          · exact absurd hp ha
          · apply ih _ (inv_commitDelivery hs hcand.1 hm hcand.2.1 he)
            have hl := @commitDelivery_del_length dist v s g hcand.2.1
            have hl2 : (commitDelivery dist v s g).picked_up = s.picked_up := rfl
            rw [hl, hl2]
            omega
    · rw [if_neg hcond, if_neg hcond]

lemma distLoop_stable {dist : Location → Location → ℚ} {v : Vehicle}
    {goods : List PerishableGoods} :
    ∀ (n : Nat) (s : BuildState), Inv goods s →
      2 * (goods.map (fun g => g.id)).dedup.length + 1 ≤
        n + s.picked_up.length + s.delivered.length →
      distLoop dist v goods (n + 1) s = distLoop dist v goods n s := by
  intro n
  induction n with
  | zero =>
    intro s hs hbound
    exfalso
    have h1 := nodup_subset_length hs.hpuN (pu_subset_ids hs)
    have h2 := nodup_subset_length hs.hdelN (del_subset_ids hs)
    omega
  | succ n ih =>
    intro s hs hbound
    rw [distLoop]
    conv_rhs => rw [distLoop]
    by_cases hcond : s.delivered.length < goods.length
    · rw [if_pos hcond, if_pos hcond]
      cases hsel : goods.foldl
          (distStep dist v s.loc s.time s.picked_up s.delivered) none with
      | none => rfl
      | some c =>
        obtain ⟨sc, a, g⟩ := c
        have hcand := dist_selection_sound hsel
        show (if a = "pickup" then
            distLoop dist v goods (n + 1) (commitPickupD dist v s g)
          else distLoop dist v goods (n + 1) (commitDelivery dist v s g)) =
          if a = "pickup" then distLoop dist v goods n (commitPickupD dist v s g)
          else distLoop dist v goods n (commitDelivery dist v s g)
        by_cases ha : a = "pickup"
        · rw [if_pos ha, if_pos ha]
          rcases hcand.2.2 with ⟨_, hnp, _⟩ | ⟨hdl, _, _⟩
          · apply ih _ (inv_commitPickupD hs hcand.1 hnp)
            have hl : (commitPickupD dist v s g).picked_up.length =
                s.picked_up.length + 1 := by
              show (insertIdem g.id s.picked_up).length = _
              rw [insertIdem_of_not_mem hnp]
              rfl
            have hl2 : (commitPickupD dist v s g).delivered = s.delivered := rfl
            rw [hl, hl2]
            omega
          · have hd2 : a = "delivery" := hdl
            rw [ha] at hd2
            exact absurd hd2 (by decide)
        · rw [if_neg ha, if_neg ha]
          rcases hcand.2.2 with ⟨hp, _, _⟩ | ⟨_, hm, he⟩
          · exact absurd hp ha
          · apply ih _ (inv_commitDelivery hs hcand.1 hm hcand.2.1 he)
            have hl := @commitDelivery_del_length dist v s g hcand.2.1
            have hl2 : (commitDelivery dist v s g).picked_up = s.picked_up := rfl
            rw [hl, hl2]
            omega
    · rw [if_neg hcond, if_neg hcond]

lemma greedyLoop_fuel_stable {dist : Location → Location → ℚ} {v : Vehicle}
    {goods : List PerishableGoods} (extra : Nat) :
    greedyLoop dist v goods (2 * goods.length + 1 + extra) (initState v) =
      greedyLoop dist v goods (2 * goods.length + 1) (initState v) := by
  induction extra with
  | zero => rfl
  | succ extra ih =>
    have hb : 2 * (goods.map (fun g => g.id)).dedup.length + 1 ≤
        (2 * goods.length + 1 + extra) + (initState v).picked_up.length +
          (initState v).delivered.length := by
      have := dedup_ids_le_length goods
      simp only [initState]
      simp only [List.length_nil]
      omega
    calc greedyLoop dist v goods (2 * goods.length + 1 + (extra + 1)) (initState v)
        = greedyLoop dist v goods ((2 * goods.length + 1 + extra) + 1) (initState v) := rfl
      _ = greedyLoop dist v goods (2 * goods.length + 1 + extra) (initState v) :=
          greedyLoop_stable _ _ (inv_initState _ v) hb
      _ = _ := ih

lemma distLoop_fuel_stable {dist : Location → Location → ℚ} {v : Vehicle}
    {goods : List PerishableGoods} (extra : Nat) :
    distLoop dist v goods (2 * goods.length + 1 + extra) (initState v) =
      distLoop dist v goods (2 * goods.length + 1) (initState v) := by
  induction extra with
  | zero => rfl
  | succ extra ih =>
    have hb : 2 * (goods.map (fun g => g.id)).dedup.length + 1 ≤
        (2 * goods.length + 1 + extra) + (initState v).picked_up.length +
          (initState v).delivered.length := by
      have := dedup_ids_le_length goods
      simp only [initState]
      simp only [List.length_nil]
      omega
    calc distLoop dist v goods (2 * goods.length + 1 + (extra + 1)) (initState v)
        = distLoop dist v goods ((2 * goods.length + 1 + extra) + 1) (initState v) := rfl
      _ = distLoop dist v goods (2 * goods.length + 1 + extra) (initState v) :=
          distLoop_stable _ _ (inv_initState _ v) hb
      _ = _ := ih

/-! ## The cached total_distance of the builders -/

lemma head_leg_nil (dist : Location → Location → ℚ) (start : Location) :
    head_leg dist start [] = 0 := rfl

lemma head_leg_cons (dist : Location → Location → ℚ) (start : Location)
    (st : RouteStop) (l : List RouteStop) :
    head_leg dist start (st :: l) = dist start st.location := rfl

lemma commitPickup_head_leg {dist : Location → Location → ℚ} {v : Vehicle}
    {s : BuildState} {g : PerishableGoods} (hd : ∀ l, dist l l = 0)
    (hdist : s.total_distance = head_leg dist v.current_location s.stops) :
    (commitPickup dist v s g).total_distance =
      head_leg dist v.current_location (commitPickup dist v s g).stops := by
  show s.total_distance +
      (if (s.stops ++ [pickupStopOf dist v s g]).length = 1 then
        dist v.current_location g.pickup_location
      else dist g.pickup_location g.pickup_location) =
    head_leg dist v.current_location (s.stops ++ [pickupStopOf dist v s g])
  rcases hstops : s.stops with _ | ⟨st0, rest⟩
  · rw [hstops] at hdist
    rw [head_leg_nil] at hdist
    rw [List.nil_append, if_pos (show ([pickupStopOf dist v s g]).length = 1 from rfl),
      head_leg_cons, hdist, zero_add]
    rfl
  · rw [hstops] at hdist
    rw [head_leg_cons] at hdist
    rw [List.cons_append, if_neg (by simp), hd, add_zero, head_leg_cons]
    exact hdist

lemma commitDelivery_head_leg {dist : Location → Location → ℚ} {v : Vehicle}
    {s : BuildState} {g : PerishableGoods} (hne : s.stops ≠ [])
    (hdist : s.total_distance = head_leg dist v.current_location s.stops) :
    (commitDelivery dist v s g).total_distance =
      head_leg dist v.current_location (commitDelivery dist v s g).stops := by
  show s.total_distance =
    head_leg dist v.current_location (s.stops ++ [deliveryStopOf dist v s g])
  rcases hstops : s.stops with _ | ⟨st0, rest⟩
  · exact absurd hstops hne
  · rw [hstops] at hdist
    rw [head_leg_cons] at hdist
    rw [List.cons_append, head_leg_cons]
    exact hdist

lemma stops_ne_of_pu_mem {goods : List PerishableGoods} {s : BuildState}
    (hs : Inv goods s) {i : String} (hi : i ∈ s.picked_up) : s.stops ≠ [] := by
  intro h
  rw [hs.hpu, h] at hi
  simp [pickupIds] at hi

lemma greedyLoop_head_leg {dist : Location → Location → ℚ} {v : Vehicle}
    {goods : List PerishableGoods} (hd : ∀ l, dist l l = 0) :
    ∀ (n : Nat) (s : BuildState), Inv goods s →
      s.total_distance = head_leg dist v.current_location s.stops →
      (greedyLoop dist v goods n s).total_distance =
        head_leg dist v.current_location (greedyLoop dist v goods n s).stops := by
  intro n
  induction n with
  | zero => intro s _ h; exact h
  | succ n ih =>
    intro s hs hdist
    rw [greedyLoop]
    split
    · split
      · exact hdist
      · rename_i c a g heq
        have hcand := greedy_selection_sound heq
        split
        · rename_i ha
          rcases hcand.2.2 with ⟨_, hnp, _⟩ | ⟨hdl, _, _⟩
          · exact ih _ (inv_commitPickup hs hcand.1 hnp)
              (commitPickup_head_leg hd hdist)
          · have hd2 : a = "delivery" := hdl
            rw [ha] at hd2
            exact absurd hd2 (by decide)
        · rename_i ha
          rcases hcand.2.2 with ⟨hp, _, _⟩ | ⟨_, hm, he⟩
          · exact absurd hp ha
          · exact ih _ (inv_commitDelivery hs hcand.1 hm hcand.2.1 he)
              (commitDelivery_head_leg (stops_ne_of_pu_mem hs hm) hdist)
    · exact hdist

lemma distLoop_total_distance {dist : Location → Location → ℚ} {v : Vehicle}
    {goods : List PerishableGoods} :
    ∀ (n : Nat) (s : BuildState),
      (distLoop dist v goods n s).total_distance = s.total_distance := by
  intro n
  induction n with
  | zero => intro s; rfl
  | succ n ih =>
    intro s
    rw [distLoop]
    split
    · split
      · rfl
      · split
        · rw [ih]
          rfl
        · rw [ih]
          rfl
    · rfl

/-! ## The ensemble selector's ordering -/

instance : IsTotal Route route_key_le := by
  constructor
  intro a b
  unfold route_key_le
  rcases lt_trichotomy a.total_goods_saved b.total_goods_saved with h | h | h
  · exact Or.inr (Or.inl h)
  · rcases le_total a.total_time b.total_time with ht | ht
    · exact Or.inl (Or.inr ⟨h.symm, ht⟩)
    · exact Or.inr (Or.inr ⟨h, ht⟩)
  · exact Or.inl (Or.inl h)

instance : IsTrans Route route_key_le := by
  constructor
  intro a b c hab hbc
  unfold route_key_le at hab hbc ⊢
  rcases hab with h1 | ⟨h1e, h1t⟩
  · rcases hbc with h2 | ⟨h2e, h2t⟩
    · exact Or.inl (h2.trans h1)
    · exact Or.inl (h2e.trans_lt h1)
  · rcases hbc with h2 | ⟨h2e, h2t⟩
    · exact Or.inl (h2.trans_eq h1e)
    · exact Or.inr ⟨h2e.trans h1e, h1t.trans h2t⟩

/-- The ensemble selector's amended contract: at most `k` routes, all
non-empty, pairwise distinct as whole `Route` values, ordered by goods
saved descending with total time ascending as tiebreak. -/
def EnsembleContract (out : List Route) (k : Nat) : Prop :=
  out.length ≤ k ∧ (∀ r ∈ out, r.stops ≠ []) ∧
    List.Pairwise (fun a b => a ≠ b) out ∧ List.Pairwise route_key_le out

lemma ensemble_of_list {L : List Route} (h1 : ∀ r ∈ L, r.stops ≠ [])
    (h2 : List.Pairwise (fun a b : Route => a ≠ b) L) (k : Nat) :
    EnsembleContract ((L.insertionSort route_key_le).take k) k := by
  have hperm := List.perm_insertionSort route_key_le L
  refine ⟨?_, ?_, ?_, ?_⟩
  · rw [List.length_take]
    exact min_le_left _ _
  · intro r hr
    exact h1 r (hperm.mem_iff.mp (List.take_subset _ _ hr))
  · exact ((hperm.pairwise_iff (fun h => Ne.symm h)).mpr h2).sublist
      (List.take_sublist _ _)
  · exact (List.sorted_insertionSort route_key_le L).sublist
      (List.take_sublist _ _)

/-! ## Cached fields of the returned routes -/

/-- The cached fields of a greedy-family route: the delivered list and
elapsed time match recomputation from the stop sequence; the cached
distance equals only the head leg. -/
def CachesMatchHead (dist : Location → Location → ℚ) (v : Vehicle)
    (r : Route) : Prop :=
  r.goods_delivered = recomputed_delivered r.stops ∧
    r.total_time = end_time r.stops ∧
    r.total_distance = head_leg dist v.current_location r.stops

/-- The cached fields of a nearest-action route: delivered list and time
match recomputation; the cached distance is always 0. -/
def CachesMatchZero (r : Route) : Prop :=
  r.goods_delivered = recomputed_delivered r.stops ∧
    r.total_time = end_time r.stops ∧
    r.total_distance = 0

lemma caches_greedy (dist : Location → Location → ℚ) (v : Vehicle)
    (gl : List PerishableGoods) (hd : ∀ l, dist l l = 0) :
    CachesMatchHead dist v (optimize_route dist v gl) := by
  unfold optimize_route optimize_route_fuel
  by_cases h : gl.isEmpty
  · rw [if_pos h]
    exact ⟨rfl, rfl, rfl⟩
  · rw [if_neg h]
    have hinv : Inv (sortByUrgency gl)
        (greedyLoop dist v (sortByUrgency gl) (2 * gl.length + 1) (initState v)) :=
      greedyLoop_inv _ _ (inv_initState _ v)
    have hdist := @greedyLoop_head_leg dist v (sortByUrgency gl) hd
      (2 * gl.length + 1) (initState v) (inv_initState _ v) rfl
    exact ⟨hinv.hgd, hinv.htime, hdist⟩

lemma caches_dist (dist : Location → Location → ℚ) (v : Vehicle)
    (gl : List PerishableGoods) :
    CachesMatchZero (optimize_by_distance dist v gl) := by
  have hinv : Inv gl (distLoop dist v gl (2 * gl.length + 1) (initState v)) :=
    distLoop_inv _ _ (inv_initState _ v)
  exact ⟨hinv.hgd, hinv.htime, distLoop_total_distance _ _⟩

/-! ## Per-route safety and deadline lemmas -/

lemma safe_greedy (dist : Location → Location → ℚ) (v : Vehicle)
    (gl : List PerishableGoods) (h : (gl.map (fun g => g.id)).Nodup) :
    SafeStopSequence (optimize_route dist v gl) := by
  rcases optimize_route_cases dist v gl with heq | ⟨s, hs, heq⟩
  · rw [heq]
    exact safe_empty v
  · rw [heq]
    exact safe_of_inv hs (ids_nodup_sorted_urgency h) v

lemma deadline_greedy (dist : Location → Location → ℚ) (v : Vehicle)
    (gl : List PerishableGoods) :
    DeliveriesMeetDeadline (optimize_route dist v gl) ∧
      FeasibleOrCapacityOnly (optimize_route dist v gl) := by
  rcases optimize_route_cases dist v gl with heq | ⟨s, hs, heq⟩
  · rw [heq]
    exact ⟨deadline_empty v, feas_empty v⟩
  · rw [heq]
    exact ⟨deadline_of_inv hs v, feas_cap_only_of_inv hs v⟩

/-! ## Termination bound -/

/-- The claimed termination behaviour: every builder's route has at most
`2·N` stops, and giving either loop any extra fuel beyond `2·N + 1` does
not change the result (the loop has reached its fixpoint). -/
def TerminationBound (dist : Location → Location → ℚ) (v : Vehicle)
    (gl : List PerishableGoods) : Prop :=
  (optimize_route dist v gl).stops.length ≤ 2 * gl.length ∧
    (optimize_by_distance dist v gl).stops.length ≤ 2 * gl.length ∧
    (optimize_by_time_window dist v gl).stops.length ≤ 2 * gl.length ∧
    (∀ extra, optimize_route_fuel dist v gl (2 * gl.length + 1 + extra) =
      optimize_route dist v gl) ∧
    (∀ extra, optimize_by_distance_fuel dist v gl (2 * gl.length + 1 + extra) =
      optimize_by_distance dist v gl)

lemma greedy_stops_len (dist : Location → Location → ℚ) (v : Vehicle)
    (gl : List PerishableGoods) :
    (optimize_route dist v gl).stops.length ≤ 2 * gl.length := by
  rcases optimize_route_cases dist v gl with heq | ⟨s, hs, heq⟩
  · rw [heq]
    exact Nat.zero_le _
  · rw [heq]
    have hb := stops_le_of_inv hs
    have hlen : (sortByUrgency gl).length = gl.length :=
      List.length_insertionSort _ _
    rw [hlen] at hb
    exact hb

lemma optimize_route_fuel_stable (dist : Location → Location → ℚ) (v : Vehicle)
    (gl : List PerishableGoods) (extra : Nat) :
    optimize_route_fuel dist v gl (2 * gl.length + 1 + extra) =
      optimize_route dist v gl := by
  unfold optimize_route optimize_route_fuel
  by_cases h : gl.isEmpty
  · rw [if_pos h, if_pos h]
  · rw [if_neg h, if_neg h]
    have hlen : (sortByUrgency gl).length = gl.length :=
      List.length_insertionSort _ _
    rw [show 2 * gl.length + 1 + extra =
        2 * (sortByUrgency gl).length + 1 + extra by rw [hlen],
      show 2 * gl.length + 1 = 2 * (sortByUrgency gl).length + 1 by rw [hlen],
      greedyLoop_fuel_stable]

lemma optimize_by_distance_fuel_stable (dist : Location → Location → ℚ)
    (v : Vehicle) (gl : List PerishableGoods) (extra : Nat) :
    optimize_by_distance_fuel dist v gl (2 * gl.length + 1 + extra) =
      optimize_by_distance dist v gl := by
  unfold optimize_by_distance optimize_by_distance_fuel
  rw [distLoop_fuel_stable]

/-! ## Claim theorems -/

/-- **C1** (amended): for every distance oracle, vehicle and goods list,
every route produced by any of the three builders satisfies the expiry half
of the feasibility check — no delivery stop arrives after its item's
time-to-expiry — and the feasibility checker can reject a built route only
with a capacity-exceeded message, never an expiry message.  The original
claim (that `is_feasible` always returns true) fails because the builders
never check capacity; see the counterexample. -/
theorem claim_C1 (dist : Location → Location → ℚ) (v : Vehicle)
    (gl : List PerishableGoods) :
    (DeliveriesMeetDeadline (optimize_route dist v gl) ∧
      FeasibleOrCapacityOnly (optimize_route dist v gl)) ∧
    (DeliveriesMeetDeadline (optimize_by_distance dist v gl) ∧
      FeasibleOrCapacityOnly (optimize_by_distance dist v gl)) ∧
    (DeliveriesMeetDeadline (optimize_by_time_window dist v gl) ∧
      FeasibleOrCapacityOnly (optimize_by_time_window dist v gl)) := by
  refine ⟨deadline_greedy dist v gl, ?_, deadline_greedy dist v (sortByDeadline gl)⟩
  rcases optimize_by_distance_state dist v gl with ⟨s, hs, heq⟩
  rw [heq]
  exact ⟨deadline_of_inv hs v, feas_cap_only_of_inv hs v⟩

/-- **C2** (amended): for every distance oracle assigning distance 0 from a
location to itself (as the haversine formula does), every builder's cached
`goods_delivered` and `total_time` match recomputation from the stop
sequence alone, but the cached `total_distance` does not equal the sum of
leg distances: for the greedy and deadline-ordered builders it equals only
the leg from the vehicle start to the first stop, and for the
nearest-action builder it is always 0.  See the counterexample for the
original claim. -/
theorem claim_C2 (dist : Location → Location → ℚ) (v : Vehicle)
    (gl : List PerishableGoods) (hd : ∀ l, dist l l = 0) :
    CachesMatchHead dist v (optimize_route dist v gl) ∧
      CachesMatchZero (optimize_by_distance dist v gl) ∧
      CachesMatchHead dist v (optimize_by_time_window dist v gl) :=
  ⟨caches_greedy dist v gl hd, caches_dist dist v gl,
    caches_greedy dist v (sortByDeadline gl) hd⟩

/-- **C5**: for every goods list with pairwise-distinct ids, in every route
returned by any builder each item is picked up at most once and delivered
at most once, and every delivery stop is strictly preceded by a pickup
stop of the same item. -/
theorem claim_C5 (dist : Location → Location → ℚ) (v : Vehicle)
    (gl : List PerishableGoods) (h : (gl.map (fun g => g.id)).Nodup) :
    SafeStopSequence (optimize_route dist v gl) ∧
      SafeStopSequence (optimize_by_distance dist v gl) ∧
      SafeStopSequence (optimize_by_time_window dist v gl) := by
  refine ⟨safe_greedy dist v gl h, ?_, ?_⟩
  · rcases optimize_by_distance_state dist v gl with ⟨s, hs, heq⟩
    rw [heq]
    exact safe_of_inv hs h v
  · exact safe_greedy dist v (sortByDeadline gl) (ids_nodup_sorted_deadline h)

/-- **C7**: for every goods list with pairwise-distinct ids, every builder
terminates — each loop reaches a fixpoint within `2·N + 1` iterations
(extra fuel does not change the result) — and the returned route has at
most `2·N` stops. -/
theorem claim_C7 (dist : Location → Location → ℚ) (v : Vehicle)
    (gl : List PerishableGoods) (h : (gl.map (fun g => g.id)).Nodup) :
    TerminationBound dist v gl := by
  refine ⟨greedy_stops_len dist v gl, ?_, ?_,
    optimize_route_fuel_stable dist v gl, optimize_by_distance_fuel_stable dist v gl⟩
  · rcases optimize_by_distance_state dist v gl with ⟨s, hs, heq⟩
    rw [heq]
    exact stops_le_of_inv hs
  · have hb := greedy_stops_len dist v (sortByDeadline gl)
    have hlen : (sortByDeadline gl).length = gl.length :=
      List.length_insertionSort _ _
    rw [hlen] at hb
    exact hb

/-- **C6** (amended): the ensemble selector returns at most `k` routes,
every returned route is non-empty, the returned routes are pairwise
distinct as whole `Route` values (deduplication is by full structural
equality, including the cached `total_distance` — so two returned routes
can share the same stop sequence, see the counterexample), and they are
ordered by total goods quantity delivered descending with total elapsed
time ascending as the tiebreak. -/
theorem claim_C6 (dist : Location → Location → ℚ) (v : Vehicle)
    (gl : List PerishableGoods) (k : Nat) :
    EnsembleContract (find_k_shortest_routes dist v gl k) k := by
  simp only [find_k_shortest_routes]
  split_ifs with h1 h2 h3 h4 h5 h6 h7 <;>
    refine ensemble_of_list ?_ ?_ _ <;>
    simp_all [List.pairwise_cons, ne_comm]

/-- **C8**: in the nearest-action builder's candidate scan, when a best
candidate is already held, a pickup candidate replaces it exactly when it
is eligible and strictly closer than the current minimum, while a delivery
candidate replaces it only when eligible and closer by more than 1 km.
The eligibility conditions are stated through `travel_time` — the greedy
builder's arrival-time computation — which coincides with the inline
`distance / speed * 60` the nearest-action builder computes, so the
eligibility thresholds of the two builders are identical. -/
theorem claim_C8 (dist : Location → Location → ℚ) (v : Vehicle)
    (loc : Location) (time : ℚ) (pu del : List String) (m : ℚ) (a0 : String)
    (g0 g : PerishableGoods) :
    (distStep dist v loc time pu del (some (m, a0, g0)) g =
      if g.id ∈ del then some (m, a0, g0)
      else if g.id ∉ pu then
        if time + travel_time dist v loc g.pickup_location ≤
            (g.pickup_time_window.2 : ℚ) ∧ dist loc g.pickup_location < m then
          some (dist loc g.pickup_location, "pickup", g)
        else some (m, a0, g0)
      else
        if time + travel_time dist v loc g.delivery_location ≤
            (g.time_to_expiry : ℚ) ∧ dist loc g.delivery_location < m - 1 then
          some (dist loc g.delivery_location, "delivery", g)
        else some (m, a0, g0)) ∧
    (∀ (l : Location) (c : ℚ),
      time + dist loc l / v.speed * 60 ≤ c ↔
        time + travel_time dist v loc l ≤ c) := by
  constructor
  · unfold distStep closerP closerD travel_time
    split_ifs <;> simp_all
  · intro l c
    exact Iff.rfl

/-- **C9**: the urgency score is
`1000 / max(time_to_expiry, 1) + (6 − priority) · 10`, and it is
monotonically non-increasing separately in the priority value and in the
time-to-expiry. -/
theorem claim_C9 :
    (∀ g : PerishableGoods, urgency_score g =
      1000 / ((max g.time_to_expiry 1 : ℤ) : ℚ) +
        ((6 - g.priority : ℤ) : ℚ) * 10) ∧
    (∀ (g : PerishableGoods) (p₁ p₂ : ℤ), p₁ ≤ p₂ →
      urgency_score { g with priority := p₂ } ≤
        urgency_score { g with priority := p₁ }) ∧
    (∀ (g : PerishableGoods) (t₁ t₂ : ℤ), t₁ ≤ t₂ →
      urgency_score { g with time_to_expiry := t₂ } ≤
        urgency_score { g with time_to_expiry := t₁ }) := by
  refine ⟨fun g => rfl, ?_, ?_⟩
  · intro g p₁ p₂ hp
    unfold urgency_score
    dsimp only
    have hc : ((6 - p₂ : ℤ) : ℚ) ≤ ((6 - p₁ : ℤ) : ℚ) := by
      have : (6 - p₂ : ℤ) ≤ (6 - p₁ : ℤ) := by omega
      exact_mod_cast this
    linarith
  · intro g t₁ t₂ ht
    unfold urgency_score
    dsimp only
    have h1 : (1 : ℤ) ≤ max t₁ 1 := le_max_right _ _
    have h2 : max t₁ 1 ≤ max t₂ 1 := max_le_max ht le_rfl
    have hpos1 : (0 : ℚ) < ((max t₁ 1 : ℤ) : ℚ) := by
      exact_mod_cast lt_of_lt_of_le Int.zero_lt_one h1
    have hle : ((max t₁ 1 : ℤ) : ℚ) ≤ ((max t₂ 1 : ℤ) : ℚ) := by exact_mod_cast h2
    have hdiv : (1000 : ℚ) / ((max t₂ 1 : ℤ) : ℚ) ≤
        1000 / ((max t₁ 1 : ℤ) : ℚ) := by
      gcongr
    linarith

/-! ## Concrete scenario data

Locations and items used by the concrete counterexamples, scenario
theorems and witnesses.  The distance oracles assign the distances each
scenario prescribes (0 between identical ids, as the haversine formula
gives 0 between identical coordinates). -/

def locHub : Location :=
  { id := "L", name := "Hub", latitude := 0, longitude := 0, type := "depot" }

def locA : Location :=
  { id := "A", name := "A", latitude := 0, longitude := 0, type := "depot" }

def locB : Location :=
  { id := "B", name := "B", latitude := 1, longitude := 0, type := "drop" }

def locC : Location :=
  { id := "C", name := "C", latitude := 2, longitude := 0, type := "drop" }

def distZero : Location → Location → ℚ := fun _ _ => 0

def distTwenty : Location → Location → ℚ :=
  fun a b => if a.latitude = b.latitude then 0 else 20

def distTen : Location → Location → ℚ :=
  fun a b => if a.latitude = b.latitude then 0 else 10

def vHub : Vehicle :=
  { id := "v1", name := "Truck", capacity := 100, current_location := locHub,
    speed := 40 }

def vA : Vehicle :=
  { id := "v1", name := "Truck", capacity := 100, current_location := locA,
    speed := 40 }

def vNegCap : Vehicle :=
  { id := "v1", name := "Truck", capacity := -5, current_location := locHub,
    speed := 40 }

def vNegSpeed : Vehicle :=
  { id := "v1", name := "Truck", capacity := 100, current_location := locHub,
    speed := -10 }

/-- A heavy, low-urgency item at the hub (huge expiry, lowest priority). -/
def gSlack : PerishableGoods :=
  { id := "g1", name := "Rice", goods_type := GoodsType.food, quantity := 60,
    pickup_location := locHub, delivery_location := locHub,
    time_to_expiry := 1000000, priority := 5, pickup_time_window := (0, 1440) }

/-- A heavy, maximally urgent item at the hub whose delivery deadline (1
minute) is already unreachable after its own pickup service time. -/
def gUrgent : PerishableGoods :=
  { id := "g2", name := "Vaccine", goods_type := GoodsType.medicine,
    quantity := 60, pickup_location := locHub, delivery_location := locHub,
    time_to_expiry := 1, priority := 1, pickup_time_window := (0, 1440) }

/-- The §8 scenario item: 30 units, pickup at A, delivery at B 20 km away,
60-minute expiry, pickup window [0, 120]. -/
def gScenario : PerishableGoods :=
  { id := "g", name := "Meals", goods_type := GoodsType.food, quantity := 30,
    pickup_location := locA, delivery_location := locB, time_to_expiry := 60,
    priority := 1, pickup_time_window := (0, 120) }

/-- An item picked up at B and delivered at C, with the vehicle starting at
A (all 10 km apart): its first leg is strictly positive. -/
def gRemote : PerishableGoods :=
  { id := "g", name := "Meals", goods_type := GoodsType.food, quantity := 30,
    pickup_location := locB, delivery_location := locC,
    time_to_expiry := 10000, priority := 1, pickup_time_window := (0, 1440) }

/-- A malformed item: non-positive quantity and window open > close. -/
def gBadGoods : PerishableGoods :=
  { id := "g", name := "Meals", goods_type := GoodsType.food, quantity := -3,
    pickup_location := locHub, delivery_location := locHub,
    time_to_expiry := 1000, priority := 1, pickup_time_window := (50, 20) }

/-- A perfectly ordinary deliverable item at the hub. -/
def gValid : PerishableGoods :=
  { id := "g", name := "Meals", goods_type := GoodsType.food, quantity := 30,
    pickup_location := locHub, delivery_location := locHub,
    time_to_expiry := 1000, priority := 1, pickup_time_window := (0, 1440) }

/-- An item whose pickup window only opens at minute 100. -/
def gOpenWindow : PerishableGoods :=
  { id := "g", name := "Meals", goods_type := GoodsType.food, quantity := 5,
    pickup_location := locHub, delivery_location := locHub,
    time_to_expiry := 10000, priority := 1, pickup_time_window := (100, 200) }

/-! String-literal disequalities used while evaluating the loops. -/

lemma str_dp : ("delivery" = "pickup") = False := by simp

lemma str_pd : ("pickup" = "delivery") = False := by simp

lemma str_g12 : (("g1" : String) = "g2") = False := by simp

lemma str_g21 : (("g2" : String) = "g1") = False := by simp

/-- **C1** counterexample: with two 60-unit items at one hub and capacity
100, the greedy builder picks the urgent item up first, its delivery
deadline immediately becomes unreachable, and the second item is then
picked up as well — 120 units on board — so the feasibility checker
rejects the returned route, refuting the claim that every built route is
accepted as feasible. -/
theorem claim_C1_counterexample :
    Route.is_feasible (optimize_route distZero vHub [gSlack, gUrgent]) =
      (false, "Capacity exceeded at Hub") := by
  norm_num [optimize_route, optimize_route_fuel, sortByUrgency, greedyLoop,
    greedyStep, commitPickup, commitDelivery, pickupStopOf, deliveryStopOf,
    initState, insertIdem, beats, urgency_score, travel_time, routeOf,
    Route.is_feasible, feasLoop, distZero, vHub, gSlack, gUrgent, locHub,
    str_dp, str_pd, str_g12, str_g21]
  try rfl

/-- **C2** counterexample: for the one-item scenario with the vehicle at A
and the item going from B to C (all 10 km apart), the greedy builder's
cached `total_distance` is 10 — only the first leg — while the distance
recomputed from the stop sequence, as the claim words it, is 20. -/
theorem claim_C2_counterexample :
    (optimize_route distTen vA [gRemote]).total_distance = 10 ∧
    spec_route_distance distTen vA.current_location
      (optimize_route distTen vA [gRemote]).stops = 20 ∧
    (10 : ℚ) ≠ 20 := by
  refine ⟨?_, ?_, by norm_num⟩ <;>
    norm_num [optimize_route, optimize_route_fuel, sortByUrgency, greedyLoop,
      greedyStep, commitPickup, commitDelivery, pickupStopOf, deliveryStopOf,
      initState, insertIdem, beats, urgency_score, travel_time, routeOf,
      spec_route_distance, distTen, vA, gRemote, locA, locB, locC,
      str_dp, str_pd, str_g12, str_g21]

/-- **C3** counterexample: on an input whose vehicle has negative capacity
and whose goods item has negative quantity and an inverted pickup window,
the optimizer raises no error and returns a 2-stop route — planning runs;
there is no InvalidInput validation anywhere in the code. -/
theorem claim_C3_counterexample :
    vNegCap.capacity ≤ 0 ∧ gBadGoods.quantity ≤ 0 ∧
    gBadGoods.pickup_time_window.1 > gBadGoods.pickup_time_window.2 ∧
    (optimize_route distZero vNegCap [gBadGoods]).stops.length = 2 := by
  refine ⟨by norm_num [vNegCap], by norm_num [gBadGoods],
    by norm_num [gBadGoods], ?_⟩
  norm_num [optimize_route, optimize_route_fuel, sortByUrgency, greedyLoop,
    greedyStep, commitPickup, commitDelivery, pickupStopOf, deliveryStopOf,
    initState, insertIdem, beats, urgency_score, travel_time, routeOf,
    distZero, vNegCap, gBadGoods, locHub, str_dp, str_pd]

/-- **C3** (amended): the optimizer performs no input validation at all —
a malformed vehicle (capacity ≤ 0 or speed ≤ 0) or malformed goods item
(quantity ≤ 0, window open > close) is accepted and planning proceeds
normally, returning an ordinary route instead of failing fast. -/
theorem claim_C3 :
    (vNegCap.capacity ≤ 0 ∧
      (optimize_route distZero vNegCap [gValid]).stops.length = 2 ∧
      (optimize_route distZero vNegCap [gValid]).total_goods_saved = 30) ∧
    (vNegSpeed.speed ≤ 0 ∧
      (optimize_route distZero vNegSpeed [gValid]).stops.length = 2) ∧
    (gBadGoods.quantity ≤ 0 ∧
      gBadGoods.pickup_time_window.1 > gBadGoods.pickup_time_window.2 ∧
      (optimize_route distZero vHub [gBadGoods]).stops.length = 2) := by
  refine ⟨⟨by norm_num [vNegCap], ?_, ?_⟩, ⟨by norm_num [vNegSpeed], ?_⟩,
    ⟨by norm_num [gBadGoods], by norm_num [gBadGoods], ?_⟩⟩ <;>
    norm_num [optimize_route, optimize_route_fuel, sortByUrgency, greedyLoop,
      greedyStep, commitPickup, commitDelivery, pickupStopOf, deliveryStopOf,
      initState, insertIdem, beats, urgency_score, travel_time, routeOf,
      Route.total_goods_saved, distZero, vNegCap, vNegSpeed, vHub, gValid,
      gBadGoods, locHub, str_dp, str_pd]

/-- **C4** counterexample: in the §8 scenario the delivery stop's arrival
time is 45 minutes — 30 minutes of travel plus the 15-minute service time
spent at the pickup — not the ≈30 minutes the claim states. -/
theorem claim_C4_counterexample :
    (optimize_route distTwenty vA [gScenario]).stops.map
        (fun st => (st.action, st.arrival_time)) =
      [("pickup", 0), ("delivery", 45)] ∧ (45 : ℚ) ≠ 30 := by
  refine ⟨?_, by norm_num⟩
  norm_num [optimize_route, optimize_route_fuel, sortByUrgency, greedyLoop,
    greedyStep, commitPickup, commitDelivery, pickupStopOf, deliveryStopOf,
    initState, insertIdem, beats, urgency_score, travel_time, routeOf,
    distTwenty, vA, gScenario, locA, locB, str_dp, str_pd]

/-- **C4** (amended): in the §8 scenario (capacity 100, speed 40 km/h,
vehicle at A; 30 units from A to B 20 km away, 60-minute expiry, window
[0, 120]) the greedy builder returns a 2-stop route — pickup arriving at
minute 0 and delivery arriving at minute 45 (30 travel + 15 pickup
service) — the route is feasible and 30 units are delivered. -/
theorem claim_C4 :
    (optimize_route distTwenty vA [gScenario]).stops.map
        (fun st => (st.action, st.arrival_time)) =
      [("pickup", 0), ("delivery", 45)] ∧
    Route.is_feasible (optimize_route distTwenty vA [gScenario]) =
      (true, "Route is feasible") ∧
    (optimize_route distTwenty vA [gScenario]).total_goods_saved = 30 := by
  refine ⟨?_, ?_, ?_⟩ <;>
    norm_num [optimize_route, optimize_route_fuel, sortByUrgency, greedyLoop,
      greedyStep, commitPickup, commitDelivery, pickupStopOf, deliveryStopOf,
      initState, insertIdem, beats, urgency_score, travel_time, routeOf,
      Route.is_feasible, feasLoop, Route.total_goods_saved, distTwenty, vA,
      gScenario, locA, locB, str_dp, str_pd]

/-- **C6** counterexample: for the vehicle-at-A, item-from-B-to-C scenario
the greedy and nearest-action builders produce routes with identical stop
sequences but different cached `total_distance` (10 vs 0), so whole-value
deduplication keeps both: the selector returns two routes with the same
stop sequence, refuting the claimed stop-sequence deduplication. -/
theorem claim_C6_counterexample :
    (find_k_shortest_routes distTen vA [gRemote] 3).length = 2 ∧
    ¬ (((find_k_shortest_routes distTen vA [gRemote] 3).map
        Route.stops).Nodup) := by
  constructor <;>
    norm_num [find_k_shortest_routes, optimize_route, optimize_route_fuel,
      optimize_by_distance, optimize_by_distance_fuel, optimize_by_time_window,
      sortByUrgency, sortByDeadline, greedyLoop, distLoop, greedyStep, distStep,
      commitPickup, commitPickupD, commitDelivery, pickupStopOf, deliveryStopOf,
      initState, insertIdem, beats, closerP, closerD, urgency_score,
      travel_time, routeOf, route_key_le, Route.total_goods_saved, distTen,
      vA, gRemote, locA, locB, locC, str_dp, str_pd]

/-- **C10**: pickup eligibility consults only the window's close bound, so
for an item whose window opens at minute 100 both the greedy and the
nearest-action builders commit a pickup stop arriving at minute 0 —
strictly before the window opens. -/
theorem claim_C10 :
    gOpenWindow.pickup_time_window.1 = 100 ∧
    ((optimize_route distZero vHub [gOpenWindow]).stops.map
        (fun st => (st.action, st.arrival_time))).head? =
      some ("pickup", 0) ∧
    ((optimize_by_distance distZero vHub [gOpenWindow]).stops.map
        (fun st => (st.action, st.arrival_time))).head? =
      some ("pickup", 0) ∧
    (0 : ℚ) < ((gOpenWindow.pickup_time_window.1 : ℤ) : ℚ) := by
  refine ⟨by norm_num [gOpenWindow], ?_, ?_, by norm_num [gOpenWindow]⟩ <;>
    norm_num [optimize_route, optimize_route_fuel, optimize_by_distance,
      optimize_by_distance_fuel, sortByUrgency, greedyLoop, distLoop,
      greedyStep, distStep, commitPickup, commitPickupD, commitDelivery,
      pickupStopOf, deliveryStopOf, initState, insertIdem, beats, closerP,
      closerD, urgency_score, travel_time, routeOf, distZero, vHub,
      gOpenWindow, locHub, str_dp, str_pd]

/-- Witness for C2: the amended cache theorem applied to the all-zero
distance oracle, a hub vehicle and one item. -/
theorem claim_C2_witness :
    (∀ l, distZero l l = 0) ∧
    (CachesMatchHead distZero vHub (optimize_route distZero vHub [gValid]) ∧
      CachesMatchZero (optimize_by_distance distZero vHub [gValid]) ∧
      CachesMatchHead distZero vHub
        (optimize_by_time_window distZero vHub [gValid])) :=
  ⟨fun _ => rfl, claim_C2 distZero vHub [gValid] (fun _ => rfl)⟩

/-- Witness for C5: the structural-invariant theorem applied to a concrete
two-item list with distinct ids. -/
theorem claim_C5_witness :
    (([gSlack, gUrgent].map (fun g => g.id)).Nodup) ∧
    (SafeStopSequence (optimize_route distZero vHub [gSlack, gUrgent]) ∧
      SafeStopSequence (optimize_by_distance distZero vHub [gSlack, gUrgent]) ∧
      SafeStopSequence
        (optimize_by_time_window distZero vHub [gSlack, gUrgent])) :=
  ⟨by decide, claim_C5 distZero vHub [gSlack, gUrgent] (by decide)⟩

/-- Witness for C7: the termination theorem applied to the same concrete
two-item list. -/
theorem claim_C7_witness :
    (([gSlack, gUrgent].map (fun g => g.id)).Nodup) ∧
    TerminationBound distZero vHub [gSlack, gUrgent] :=
  ⟨by decide, claim_C7 distZero vHub [gSlack, gUrgent] (by decide)⟩

/-- Witness for C9: the monotonicity parts applied at concrete priorities
2 ≤ 4 and expiries 30 ≤ 60. -/
theorem claim_C9_witness :
    ((2 : ℤ) ≤ 4 ∧
      urgency_score { gValid with priority := 4 } ≤
        urgency_score { gValid with priority := 2 }) ∧
    ((30 : ℤ) ≤ 60 ∧
      urgency_score { gValid with time_to_expiry := 60 } ≤
        urgency_score { gValid with time_to_expiry := 30 }) :=
  ⟨⟨by decide, claim_C9.2.1 gValid 2 4 (by decide)⟩,
    ⟨by decide, claim_C9.2.2 gValid 30 60 (by decide)⟩⟩

end BrainByte
